import Mathlib

/-!
Verification of the Timeline Scrub & Autosave Coordinator
(`src/routes/editor/[id]/+page.svelte` plus `src/lib/api.ts`).

The component is single-threaded and event-driven, so we embed it as
explicit state records together with step functions over event lists.
Asynchronous suspension points (`await`) are modelled by splitting a
handler into an issue event and a completion event where a claim
depends on the interleaving, and as an atomic event otherwise.
-/

namespace XPatchEditor

/-- Record `DocumentStats` from `src/lib/api.ts`.  `compression_ratio` is a
JS number; the values exercised here are exact, so we use `ℚ`. -/
structure DocumentStats where
  total_patches : Nat
  total_delta_bytes : Nat
  total_uncompressed_bytes : Nat
  compression_ratio : ℚ
deriving Repr, DecidableEq

/-- Round-half-up of the exact rational `a / b` (for `b > 0`), the value
`Math.round` produces on the nonnegative quotients used below. -/
def jsRoundDiv (a b : Nat) : Nat := (2 * a + b) / (2 * b)

/-- Render the rational `m / 100` the way JS stringifies the number
`Math.round(x * 100) / 100`: no decimal point for integers, trailing
zeros trimmed otherwise. -/
def hundredthsToString (m : Nat) : String :=
  if m % 100 = 0 then toString (m / 100)
  else if m % 10 = 0 then toString (m / 100) ++ "." ++ toString (m / 10 % 10)
  else toString (m / 100) ++ "." ++ (if m % 100 < 10 then "0" else "") ++ toString (m % 100)

/-- Fuel-driven floor logarithm: `logFloorAux fuel k n` counts how often
`n` can be divided by `k` before dropping below `k`. -/
def logFloorAux : Nat → Nat → Nat → Nat
  | 0, _, _ => 0
  | fuel + 1, k, n => if n < k then 0 else logFloorAux fuel k (n / k) + 1

/-- The value `logFloor k n` is the integer `i` with `k^i ≤ n < k^(i+1)` (for
`k ≥ 2`, `n ≥ 1`), i.e. `⌊log_k n⌋`. -/
def logFloor (k n : Nat) : Nat := logFloorAux n k n

/-- Function `formatBytes` (`+page.svelte` lines 115-121).  The exponent
`Math.floor(Math.log(bytes) / Math.log(1024))` is, for the byte counts
in range here, `⌊log_1024 bytes⌋`; the rounded quotient is computed
exactly. -/
def formatBytes (bytes : Nat) : String :=
  if bytes = 0 then "0 B"
  else
    let k := 1024
    let sizes := ["B", "KB", "MB"]
    let i := logFloor k bytes
    hundredthsToString (jsRoundDiv (bytes * 100) (k ^ i)) ++ " " ++ sizes.getD i ""

/-- JS `Number.prototype.toFixed(1)` on the nonnegative exact rationals
used here: round `q * 10` half-up to an integer `m` and print
`m / 10` with one decimal digit. -/
def toFixed1 (q : ℚ) : String :=
  let m : Int := (q.num * 20 + (q.den : Int)) / (2 * (q.den : Int))
  toString (m / 10) ++ "." ++ toString (m % 10)

/-- The average-bytes-per-patch figure from the stats header
(`+page.svelte` line 233): `Math.round(total_delta_bytes / total_patches)`.
The template only renders it when `total_patches > 0`. -/
def avgBytesPerPatch (s : DocumentStats) : Nat :=
  jsRoundDiv s.total_delta_bytes s.total_patches

/-- The compression-ratio text from the stats header (`+page.svelte`
line 227): `compression_ratio.toFixed(1)` followed by `x compression`. -/
def compressionText (s : DocumentStats) : String :=
  toFixed1 s.compression_ratio ++ "x compression"

/-- C8: for `getStats` returning 4 patches, 40 delta bytes, 4000
uncompressed bytes and ratio 100.0, the header derives an average of
10 bytes per patch, renders it through `formatBytes` as `10 B`, and
renders the ratio as `100.0x compression`. -/
theorem stats_display_scenario :
    avgBytesPerPatch ⟨4, 40, 4000, 100⟩ = 10 ∧
    formatBytes (avgBytesPerPatch ⟨4, 40, 4000, 100⟩) = "10 B" ∧
    compressionText ⟨4, 40, 4000, 100⟩ = "100.0x compression" := by
  decide

namespace Editor

/-- The `mode` state of the page: `'write' | 'preview'` (line 29).
Time travel is a separate boolean overlay (`isTimeTravel`), exactly as
in the source. -/
inductive Mode where
  | write
  | preview
deriving Repr, DecidableEq

/-- The reactive state of the editor page (`+page.svelte` lines 28-38)
together with logs of the calls made to the external store, so that
theorems can speak about which requests were issued.
`timeTravelIndex` models `timeTravelIndex[0]` (the singleton-array
wrapper is a slider-binding detail); it is an `Int` because the JS
value `timestamps.length - 1` can be `-1`. -/
structure EditorState where
  content : String
  mode : Mode
  timestamps : List Nat
  timeTravelIndex : Int
  isTimeTravel : Bool
  timeTravelContent : String
  savePending : Bool
  patchLog : List String
  resolveLog : List Nat
  tsFetches : Nat
  statsFetches : Nat
deriving Repr, DecidableEq

/-- Function `handleTimeTravelChange` (lines 91-96): record the new index, enter
time travel, and request reconstruction at `timestamps[value[0]]`.
Resolution is modelled synchronously here via `res`, the content the
store returns for a timestamp; the completion-order hazard of the
`await` is studied separately in the `Resolver` model. -/
def handleTimeTravelChange (res : Nat → String) (s : EditorState) (i : Int) : EditorState :=
  let ts := s.timestamps.getD i.toNat 0
  { s with timeTravelIndex := i, isTimeTravel := true,
           resolveLog := s.resolveLog ++ [ts],
           timeTravelContent := res ts }

/-- Function `jumpToVersion` (lines 98-101). -/
def jumpToVersion (res : Nat → String) (s : EditorState) (i : Int) : EditorState :=
  if i < 0 ∨ (s.timestamps.length : Int) ≤ i then s
  else handleTimeTravelChange res s i

/-- Function `stepVersion` (lines 103-108). -/
def stepVersion (res : Nat → String) (s : EditorState) (d : Int) : EditorState :=
  let newIndex := s.timeTravelIndex + d
  if 0 ≤ newIndex ∧ newIndex < (s.timestamps.length : Int) then jumpToVersion res s newIndex
  else s

/-- Function `performSave` (lines 64-77), parameterised by whether `createPatch`
resolves (`ok`) and by the timestamp the store assigns to the new
patch.  The `content !== undefined` guard always holds for a string
field.  A `createPatch` rejection is caught and ignored (lines 68-70);
`loadTimestamps` and `loadStats` run either way, and the refetched
timestamp list grows by exactly one on success (the store contract,
spec §6) and is unchanged on failure. -/
def performSave (ok : Bool) (newTs : Nat) (s : EditorState) : EditorState :=
  let s := { s with patchLog := s.patchLog ++ [s.content] }
  let s := { s with timestamps := if ok then s.timestamps ++ [newTs] else s.timestamps,
                    tsFetches := s.tsFetches + 1 }
  let s := { s with statsFetches := s.statsFetches + 1 }
  if ¬ s.isTimeTravel then { s with timeTravelIndex := (s.timestamps.length : Int) - 1 }
  else s

/-- Function `handleContentChange` (lines 79-89): schedule a save window only if
none is pending; otherwise a no-op. -/
def handleContentChange (s : EditorState) : EditorState :=
  if s.savePending then s
  else { s with savePending := true }

/-- Function `exitTimeTravel` (lines 110-113). -/
def exitTimeTravel (s : EditorState) : EditorState :=
  { s with isTimeTravel := false, timeTravelContent := "" }

/-- Function `onMount` (lines 40-48), parameterised by the timestamp list the
store returns, the `Date.now()` value, and the content returned by the
initial `loadDocumentAtTimestamp` call. -/
def onMount (fetchedTs : List Nat) (now : Nat) (latest : String) (s : EditorState) : EditorState :=
  let s := { s with timestamps := fetchedTs, tsFetches := s.tsFetches + 1 }
  let s := { s with statsFetches := s.statsFetches + 1 }
  if 0 < s.timestamps.length then
    { s with resolveLog := s.resolveLog ++ [now], content := latest,
             timeTravelIndex := (s.timestamps.length : Int) - 1 }
  else s

/-- The events the page reacts to.  `edit` is a textarea mutation
followed by the reactive effect at lines 180-184; `fire` is the pending
save timer firing (lines 85-88); the rest are the navigation
handlers. -/
inductive Ev where
  | edit (c : String)
  | fire (ok : Bool) (newTs : Nat)
  | jump (i : Int)
  | stepV (d : Int)
  | exitTT
deriving Repr, DecidableEq

/-- One event step.  On `edit`, the effect calls `handleContentChange`
only outside time travel (and `content !== undefined` always holds).
On `exitTT`, the same effect re-runs because `isTimeTravel` flipped,
so a save window is scheduled for the restored write surface.  `fire`
only acts when a timer was actually scheduled, and clears the pending
flag after `performSave` finishes (line 87). -/
def step (res : Nat → String) (s : EditorState) : Ev → EditorState
  | .edit c =>
      let s := { s with content := c }
      if s.isTimeTravel then s else handleContentChange s
  | .fire ok newTs =>
      if s.savePending then { performSave ok newTs s with savePending := false }
      else s
  | .jump i => jumpToVersion res s i
  | .stepV d => stepVersion res s d
  | .exitTT => handleContentChange (exitTimeTravel s)

/-- Run a list of events. -/
def run (res : Nat → String) (s : EditorState) (evs : List Ev) : EditorState :=
  evs.foldl (step res) s

/-- An `edit` outside time travel updates the content and marks a save
window pending (idempotently, per the throttle guard). -/
theorem step_edit (res : Nat → String) (s : EditorState) (c : String)
    (h : s.isTimeTravel = false) :
    step res s (.edit c) = { s with content := c, savePending := true } := by
  obtain ⟨_, _, _, _, tt, _, sp, _, _, _, _⟩ := s
  subst h
  cases sp <;> simp [step, handleContentChange]

/-- Running a burst of edits outside time travel leaves everything
unchanged except the content (which tracks the latest edit) and the
pending flag (set by the first edit of the burst). -/
theorem run_edits (res : Nat → String) (s : EditorState) (cs : List String)
    (h : s.isTimeTravel = false) :
    run res s (cs.map Ev.edit) =
      { s with content := cs.getLastD s.content,
               savePending := (s.savePending || !cs.isEmpty) } := by
  induction cs generalizing s with
  | nil => simp [run]
  | cons c cs ih =>
      have hstep := step_edit res s c h
      have h' : ({ s with content := c, savePending := true } : EditorState).isTimeTravel
          = false := h
      simp only [List.map_cons, run, List.foldl_cons, hstep]
      have := ih { s with content := c, savePending := true } h'
      simp only [run] at this
      simp only [this]
      cases cs with
      | nil => simp
      | cons a as => simp [List.getLast?_eq_getLast (a :: as) (by simp)]

/-- A concrete reconstruction function for witnesses. -/
def res0 : Nat → String := fun t => "content@" ++ toString t

/-- A concrete editor state for witnesses: five patches, write mode,
index following the latest version, nothing pending. -/
def s5 : EditorState :=
  { content := "v5", mode := .write, timestamps := [101, 102, 103, 104, 105],
    timeTravelIndex := 4, isTimeTravel := false, timeTravelContent := "",
    savePending := false, patchLog := [], resolveLog := [],
    tsFetches := 0, statsFetches := 0 }

/-- A concrete editor state with an empty timeline. -/
def sEmpty : EditorState :=
  { content := "", mode := .write, timestamps := [],
    timeTravelIndex := 0, isTimeTravel := false, timeTravelContent := "",
    savePending := false, patchLog := [], resolveLog := [],
    tsFetches := 0, statsFetches := 0 }

/-- C2: while a save window is pending, a burst of edit
notifications schedules no second timer — each later notification only
lets the content track the keystream — and the single `fire` of the
window performs exactly one `createPatch`, whose content argument is
the content current at fire time, i.e. the latest edit of the burst. -/
theorem throttle_coalesces_single_save (res : Nat → String) (s : EditorState)
    (h1 : s.savePending = false) (h2 : s.isTimeTravel = false)
    (c x : String) (cs : List String) (ok : Bool) (t : Nat) :
    run res s ((c :: cs).map Ev.edit) =
      { s with content := (c :: cs).getLastD s.content, savePending := true } ∧
    step res { s with content := (c :: cs).getLastD s.content, savePending := true }
        (Ev.edit x) =
      { s with content := x, savePending := true } ∧
    (run res s ((c :: cs).map Ev.edit ++ [Ev.fire ok t])).patchLog
      = s.patchLog ++ [(c :: cs).getLastD s.content] := by
  have hre := run_edits res s (c :: cs) h2
  simp only [h1, Bool.false_or, List.isEmpty_cons, Bool.not_false] at hre
  refine ⟨hre, step_edit res _ x h2, ?_⟩
  have hsplit : run res s ((c :: cs).map Ev.edit ++ [Ev.fire ok t])
      = step res (run res s ((c :: cs).map Ev.edit)) (Ev.fire ok t) := by
    simp [run, List.foldl_append]
  rw [hsplit, hre]
  simp [step, performSave, h2]

/-- Witness for the throttle theorem at a concrete burst. -/
theorem throttle_coalesces_single_save_witness :
    run res0 s5 (("a" :: ["ab", "abc"]).map Ev.edit) =
      { s5 with content := ("a" :: ["ab", "abc"]).getLastD s5.content,
                savePending := true } ∧
    step res0 { s5 with content := ("a" :: ["ab", "abc"]).getLastD s5.content,
                        savePending := true } (Ev.edit "zz") =
      { s5 with content := "zz", savePending := true } ∧
    (run res0 s5 (("a" :: ["ab", "abc"]).map Ev.edit ++ [Ev.fire true 106])).patchLog
      = s5.patchLog ++ [("a" :: ["ab", "abc"]).getLastD s5.content] :=
  throttle_coalesces_single_save res0 s5 rfl rfl "a" "zz" ["ab", "abc"] true 106

/-- C5: when `createPatch` rejects at a save-window fire, the
failure is swallowed — exactly one attempt is logged, the timestamp
and stats refreshes still run, the pending flag still clears — and the
next edit notification opens a fresh throttle window. -/
theorem save_failure_swallowed (res : Nat → String) (s : EditorState)
    (h1 : s.savePending = true) (h2 : s.isTimeTravel = false) (t : Nat) (c : String) :
    (step res s (.fire false t)).patchLog = s.patchLog ++ [s.content] ∧
    (step res s (.fire false t)).timestamps = s.timestamps ∧
    (step res s (.fire false t)).tsFetches = s.tsFetches + 1 ∧
    (step res s (.fire false t)).statsFetches = s.statsFetches + 1 ∧
    (step res s (.fire false t)).savePending = false ∧
    (step res (step res s (.fire false t)) (.edit c)).savePending = true := by
  simp [step, performSave, handleContentChange, h1, h2]

/-- Witness for the save-failure theorem. -/
theorem save_failure_swallowed_witness :
    (step res0 { s5 with savePending := true } (.fire false 200)).patchLog
        = ({ s5 with savePending := true } : EditorState).patchLog
            ++ [({ s5 with savePending := true } : EditorState).content] ∧
    (step res0 { s5 with savePending := true } (.fire false 200)).timestamps
        = ({ s5 with savePending := true } : EditorState).timestamps ∧
    (step res0 { s5 with savePending := true } (.fire false 200)).tsFetches
        = ({ s5 with savePending := true } : EditorState).tsFetches + 1 ∧
    (step res0 { s5 with savePending := true } (.fire false 200)).statsFetches
        = ({ s5 with savePending := true } : EditorState).statsFetches + 1 ∧
    (step res0 { s5 with savePending := true } (.fire false 200)).savePending = false ∧
    (step res0 (step res0 { s5 with savePending := true } (.fire false 200))
        (.edit "next")).savePending = true :=
  save_failure_swallowed res0 { s5 with savePending := true } rfl rfl 200 "next"

/-- C6: while time travel is active, an edit notification changes
the content state but schedules nothing: the whole editor state apart
from `content` — in particular the pending-save flag — is untouched. -/
theorem timetravel_ignores_edits (res : Nat → String) (s : EditorState) (c : String)
    (h : s.isTimeTravel = true) :
    step res s (.edit c) = { s with content := c } := by
  simp [step, h]

/-- Witness: an edit arriving during time travel on a concrete state. -/
theorem timetravel_ignores_edits_witness :
    step res0 { s5 with isTimeTravel := true } (.edit "stray")
      = { s5 with isTimeTravel := true, content := "stray" } :=
  timetravel_ignores_edits res0 { s5 with isTimeTravel := true } "stray" rfl

/-- C7: a relative step past either end of the timeline is a silent
no-op: `stepVersion (-1)` at index 0 and `stepVersion 1` at index
`length-1` return the state unchanged, so in particular no resolver
request is issued. -/
theorem step_out_of_range_noop (res : Nat → String) (s : EditorState) :
    (s.timeTravelIndex = 0 → stepVersion res s (-1) = s) ∧
    (s.timeTravelIndex = (s.timestamps.length : Int) - 1 → stepVersion res s 1 = s) := by
  constructor
  · intro h
    simp only [stepVersion, h]
    rw [if_neg]
    omega
  · intro h
    simp only [stepVersion, h]
    rw [if_neg]
    omega

/-- Witness: boundary steps on concrete states at both ends. -/
theorem step_out_of_range_noop_witness :
    stepVersion res0 { s5 with timeTravelIndex := 0 } (-1)
        = { s5 with timeTravelIndex := 0 } ∧
    stepVersion res0 s5 1 = s5 :=
  ⟨(step_out_of_range_noop res0 { s5 with timeTravelIndex := 0 }).1 rfl,
   (step_out_of_range_noop res0 s5).2 (by decide)⟩

/-- C9: with an empty timeline the navigation interface is inert:
`onMount` skips the initial content load entirely, and `jumpToVersion`
and `stepVersion` are no-ops for every argument (no request issued, no
time travel entered, index unchanged). -/
theorem empty_timeline_inert (res : Nat → String) (s : EditorState)
    (h : s.timestamps = []) (now : Nat) (latest : String) (i d : Int) :
    (onMount [] now latest s).resolveLog = s.resolveLog ∧
    (onMount [] now latest s).content = s.content ∧
    (onMount [] now latest s).timeTravelIndex = s.timeTravelIndex ∧
    (onMount [] now latest s).isTimeTravel = s.isTimeTravel ∧
    jumpToVersion res s i = s ∧
    stepVersion res s d = s := by
  refine ⟨by simp [onMount], by simp [onMount], by simp [onMount], by simp [onMount], ?_, ?_⟩
  · simp only [jumpToVersion, h, List.length_nil, Nat.cast_zero]
    rw [if_pos]
    omega
  · simp only [stepVersion, h, List.length_nil, Nat.cast_zero]
    rw [if_neg]
    omega

/-- Witness: the inert empty-timeline state at concrete arguments. -/
theorem empty_timeline_inert_witness :
    (onMount [] 999 "late" sEmpty).resolveLog = sEmpty.resolveLog ∧
    (onMount [] 999 "late" sEmpty).content = sEmpty.content ∧
    (onMount [] 999 "late" sEmpty).timeTravelIndex = sEmpty.timeTravelIndex ∧
    (onMount [] 999 "late" sEmpty).isTimeTravel = sEmpty.isTimeTravel ∧
    jumpToVersion res0 sEmpty 3 = sEmpty ∧
    stepVersion res0 sEmpty (-1) = sEmpty :=
  empty_timeline_inert res0 sEmpty rfl 999 "late" 3 (-1)

/-- C3, counterexample: in the scenario of the claim (time travel
to index 2, a save landing while time-traveling, then
`exitTimeTravel`), the index immediately after `exitTimeTravel` is
still 2, not the new `length - 1`: `exitTimeTravel` does not snap the
index. -/
theorem exit_does_not_snap_counterexample :
    (run res0 s5 [.edit "x", .jump 2, .fire true 106, .exitTT]).isTimeTravel = false ∧
    (run res0 s5 [.edit "x", .jump 2, .fire true 106, .exitTT]).timestamps.length = 6 ∧
    (run res0 s5 [.edit "x", .jump 2, .fire true 106, .exitTT]).timeTravelIndex = 2 ∧
    (run res0 s5 [.edit "x", .jump 2, .fire true 106, .exitTT]).timeTravelIndex ≠
      ((run res0 s5 [.edit "x", .jump 2, .fire true 106, .exitTT]).timestamps.length : Int)
        - 1 := by
  decide

/-- C3, amended: entering time travel at index 2 pins the index
there: a save completing during time travel grows the timeline without
moving the index; `exitTimeTravel` clears the overlay (the write mode
is again presented) but leaves the index at 2; the index snaps to the
then-current `length - 1` only when the next successful save
completes after the exit. -/
theorem timetravel_index_fixed_until_save_after_exit (res : Nat → String)
    (s : EditorState) (h5 : s.timestamps.length = 5) (hTT : s.isTimeTravel = false)
    (hm : s.mode = .write) (_hp : s.savePending = false) (c : String) (t1 t2 : Nat) :
    (run res s [.edit c, .jump 2, .fire true t1]).isTimeTravel = true ∧
    (run res s [.edit c, .jump 2, .fire true t1]).timeTravelIndex = 2 ∧
    (run res s [.edit c, .jump 2, .fire true t1]).timestamps.length = 6 ∧
    (run res s [.edit c, .jump 2, .fire true t1]).mode = .write ∧
    (run res s [.edit c, .jump 2, .fire true t1, .exitTT]).isTimeTravel = false ∧
    (run res s [.edit c, .jump 2, .fire true t1, .exitTT]).timeTravelIndex = 2 ∧
    (run res s [.edit c, .jump 2, .fire true t1, .exitTT]).mode = .write ∧
    (run res s [.edit c, .jump 2, .fire true t1, .exitTT, .fire true t2]).timestamps.length
        = 7 ∧
    (run res s [.edit c, .jump 2, .fire true t1, .exitTT, .fire true t2]).timeTravelIndex
        = ((run res s [.edit c, .jump 2, .fire true t1, .exitTT, .fire true t2]
            ).timestamps.length : Int) - 1 := by
  have h1 : step res s (.edit c) = { s with content := c, savePending := true } :=
    step_edit res s c hTT
  have hguard : ¬((2 : Int) < 0 ∨ (s.timestamps.length : Int) ≤ 2) := by omega
  have h2 : step res { s with content := c, savePending := true } (.jump 2)
      = { s with content := c, savePending := true, timeTravelIndex := 2,
                 isTimeTravel := true,
                 resolveLog := s.resolveLog ++ [s.timestamps.getD 2 0],
                 timeTravelContent := res (s.timestamps.getD 2 0) } := by
    simp only [step, jumpToVersion]
    rw [if_neg (by omega)]
    simp [handleTimeTravelChange]
  simp only [run, List.foldl_cons, List.foldl_nil, h1, h2]
  simp [step, performSave, exitTimeTravel, handleContentChange, h5, hm]

/-- Witness for the amended C3 scenario on a concrete state. -/
theorem timetravel_index_fixed_until_save_after_exit_witness :
    (run res0 s5 [.edit "x", .jump 2, .fire true 106]).isTimeTravel = true ∧
    (run res0 s5 [.edit "x", .jump 2, .fire true 106]).timeTravelIndex = 2 ∧
    (run res0 s5 [.edit "x", .jump 2, .fire true 106]).timestamps.length = 6 ∧
    (run res0 s5 [.edit "x", .jump 2, .fire true 106]).mode = .write ∧
    (run res0 s5 [.edit "x", .jump 2, .fire true 106, .exitTT]).isTimeTravel = false ∧
    (run res0 s5 [.edit "x", .jump 2, .fire true 106, .exitTT]).timeTravelIndex = 2 ∧
    (run res0 s5 [.edit "x", .jump 2, .fire true 106, .exitTT]).mode = .write ∧
    (run res0 s5 [.edit "x", .jump 2, .fire true 106, .exitTT,
        .fire true 107]).timestamps.length = 7 ∧
    (run res0 s5 [.edit "x", .jump 2, .fire true 106, .exitTT,
        .fire true 107]).timeTravelIndex
        = ((run res0 s5 [.edit "x", .jump 2, .fire true 106, .exitTT,
            .fire true 107]).timestamps.length : Int) - 1 :=
  timetravel_index_fixed_until_save_after_exit res0 s5 rfl rfl rfl rfl "x" 106 107

end Editor

namespace Resolver

/-!
The asynchronous structure of `handleTimeTravelChange` (lines 91-96):
the handler runs synchronously up to the `await loadDocumentAtTimestamp`
call, and when that promise settles the resumption assigns the result to
`timeTravelContent` — unconditionally, with no sequence-number check
anywhere in the source.  We therefore split the handler into an `issue`
event (the part before the suspension) and a `complete` event (the
resumption).  Issue sequence numbers exist in this model only as ghost
bookkeeping so the spec's ordering property can be stated; the code
assigns none.  `res` maps the requested position to the content the
store reconstructs for it.
-/

/-- One in-flight reconstruction request: ghost issue sequence number
and the position it was issued for. -/
structure Req where
  seq : Nat
  idx : Nat
deriving Repr, DecidableEq

/-- The display-relevant state of the scrub handler, with ghost request
bookkeeping: `pending` holds issued-but-unsettled requests and
`completedLog` the settled ones in completion order. -/
structure RState where
  timeTravelIndex : Nat
  isTimeTravel : Bool
  timeTravelContent : String
  nextSeq : Nat
  pending : List Req
  completedLog : List Req
deriving Repr, DecidableEq

/-- Scrub events: `issue i` runs `handleTimeTravelChange([i])` up to its
`await`; `complete q` resumes the suspended handler of the request with
ghost sequence number `q` (if still unsettled), executing the
assignment `timeTravelContent = result` from line 95. -/
inductive REv where
  | issue (i : Nat)
  | complete (q : Nat)
deriving Repr, DecidableEq

/-- One event step of the resolver. -/
def rstep (res : Nat → String) (s : RState) : REv → RState
  | .issue i =>
      { s with timeTravelIndex := i, isTimeTravel := true,
               pending := s.pending ++ [⟨s.nextSeq, i⟩],
               nextSeq := s.nextSeq + 1 }
  | .complete q =>
      match s.pending.find? (fun r => r.seq == q) with
      | some r =>
          { s with timeTravelContent := res r.idx,
                   pending := s.pending.filter (fun r' => r'.seq != q),
                   completedLog := s.completedLog ++ [r] }
      | none => s

/-- Run a list of resolver events. -/
def rrun (res : Nat → String) (s : RState) (evs : List REv) : RState :=
  evs.foldl (rstep res) s

/-- The initial state: no requests, no time travel, empty display. -/
def rinit : RState :=
  { timeTravelIndex := 0, isTimeTravel := false, timeTravelContent := "",
    nextSeq := 0, pending := [], completedLog := [] }

/-- The completed request with the highest issue sequence number, i.e.
the most recently issued request that has resolved. -/
def highestCompleted (s : RState) : Option Req :=
  s.completedLog.foldl
    (fun acc r => match acc with
      | none => some r
      | some m => if m.seq < r.seq then some r else some m)
    none

/-- A concrete reconstruction function distinguishing positions. -/
def resIdx : Nat → String := fun i => "v" ++ toString i

/-- C1, counterexample: issue requests for positions 0 then 1, let
the later request complete first and the earlier one complete last.
The most recently issued request that has resolved is the one for
position 1, yet the displayed content is the result for position 0:
the stale lower-sequence completion was applied, not discarded. -/
theorem stale_completion_overwrites_counterexample :
    highestCompleted (rrun resIdx rinit [.issue 0, .issue 1, .complete 1, .complete 0])
        = some ⟨1, 1⟩ ∧
    resIdx 1 = "v1" ∧
    (rrun resIdx rinit [.issue 0, .issue 1, .complete 1, .complete 0]).timeTravelContent
        = "v0" ∧
    (rrun resIdx rinit [.issue 0, .issue 1, .complete 1, .complete 0]).timeTravelContent
        ≠ resIdx 1 := by
  decide

/-- C1, amended: the code tags requests with no sequence numbers
and discards nothing; every completion overwrites the displayed
content unconditionally, so at every point the displayed content
equals the result of the most recently *completed* request (or the
initial empty display while none has completed), regardless of issue
order. -/
theorem display_follows_completion_order (res : Nat → String) (evs : List REv) :
    (rrun res rinit evs).timeTravelContent =
      match (rrun res rinit evs).completedLog.getLast? with
      | some r => res r.idx
      | none => "" := by
  suffices h : ∀ s : RState,
      (s.timeTravelContent =
        match s.completedLog.getLast? with
        | some r => res r.idx
        | none => "") →
      ((rrun res s evs).timeTravelContent =
        match (rrun res s evs).completedLog.getLast? with
        | some r => res r.idx
        | none => "") by
    exact h rinit rfl
  induction evs with
  | nil => intro s hs; exact hs
  | cons e evs ih =>
      intro s hs
      refine ih (rstep res s e) ?_
      cases e with
      | issue i => simpa [rstep] using hs
      | complete q =>
          simp only [rstep]
          cases hfind : s.pending.find? (fun r => r.seq == q) with
          | none => simpa using hs
          | some r => simp

end Resolver

namespace KeyRepeat

/-!
Timed model of the arrow-key hold behaviour (`handleKeyDown` lines
137-165, `handleKeyUp` lines 167-178).  A timer is the remaining number
of milliseconds until it fires together with the direction its callback
steps in; `stepLog` records every `stepVersion(direction)` call.  The
single-slot `Option` representation matches the source's single
`keyHoldTimeout` / `keyHoldInterval` variables; that no second live
timer can hide behind them is established on the id-tracking `Timers`
model below.
-/

/-- Key-repeat timer state. -/
structure KState where
  isPopoverOpen : Bool
  holdTimeout : Option (Nat × Int)
  holdInterval : Option (Nat × Int)
  stepLog : List Int
deriving Repr, DecidableEq

/-- Function `handleKeyDown` for an arrow key of direction `d` (`-1` for
ArrowLeft, `1` for ArrowRight): ignored unless the popover is open;
otherwise clear any existing timers (lines 143-151), perform the
immediate first step (line 156), and arm the 300 ms delay timer
(line 163). -/
def handleKeyDown (s : KState) (d : Int) : KState :=
  if ¬ s.isPopoverOpen then s
  else
    { s with holdInterval := none, holdTimeout := some (300, d),
             stepLog := s.stepLog ++ [d] }

/-- Function `handleKeyUp` for an arrow key: clear both timers unconditionally
(lines 167-178). -/
def handleKeyUp (s : KState) : KState :=
  { s with holdInterval := none, holdTimeout := none }

/-- One millisecond passing.  An armed delay timer counts down and, on
firing, its callback arms the 50 ms interval (lines 159-163); an armed
interval counts down and, on firing, performs one step and re-arms for
the next 50 ms period. -/
def tick (s : KState) : KState :=
  match s.holdTimeout with
  | some (r, d) =>
      if r ≤ 1 then { s with holdTimeout := none, holdInterval := some (50, d) }
      else { s with holdTimeout := some (r - 1, d) }
  | none =>
      match s.holdInterval with
      | some (r, d) =>
          if r ≤ 1 then { s with holdInterval := some (50, d), stepLog := s.stepLog ++ [d] }
          else { s with holdInterval := some (r - 1, d) }
      | none => s

/-- Key-repeat events. -/
inductive KEv where
  | keyDown (d : Int)
  | keyUp
  | tick
deriving Repr, DecidableEq

/-- One event step. -/
def kstep (s : KState) : KEv → KState
  | .keyDown d => handleKeyDown s d
  | .keyUp => handleKeyUp s
  | .tick => tick s

/-- Run a list of key-repeat events. -/
def krun (s : KState) (evs : List KEv) : KState :=
  evs.foldl kstep s

/-- Idle state with the navigation popover open. -/
def kinit : KState :=
  { isPopoverOpen := true, holdTimeout := none, holdInterval := none, stepLog := [] }

/-- State during the initial 300 ms delay: `n` milliseconds after
key-down (for `n ≤ 299`), the delay timer still counts down and only
the immediate step has happened. -/
theorem krun_delay_phase (d : Int) (n : Nat) (hn : n ≤ 299) :
    krun (handleKeyDown kinit d) (List.replicate n .tick) =
      { isPopoverOpen := true, holdTimeout := some (300 - n, d),
        holdInterval := none, stepLog := [d] } := by
  induction n with
  | zero => simp [krun, handleKeyDown, kinit]
  | succ n ih =>
      have hn' : n ≤ 299 := by omega
      have hstep := ih hn'
      rw [List.replicate_succ' n KEv.tick] at *
      simp only [krun, List.foldl_append, List.foldl_cons, List.foldl_nil] at *
      rw [hstep]
      simp only [kstep, tick]
      rw [if_neg (by omega)]
      simp only [KState.mk.injEq, Option.some.injEq, Prod.mk.injEq, and_true, true_and]
      omega

/-- State during the repeating phase: `n` milliseconds after key-down
(for `n ≥ 300`), the delay timer has fired, the 50 ms interval is
armed, and a repeat step has occurred at 350 ms, 400 ms, …. -/
theorem krun_repeat_phase (d : Int) (n : Nat) (hn : 300 ≤ n) :
    krun (handleKeyDown kinit d) (List.replicate n .tick) =
      { isPopoverOpen := true, holdTimeout := none,
        holdInterval := some (50 - (n - 300) % 50, d),
        stepLog := List.replicate (1 + (n - 300) / 50) d } := by
  induction n with
  | zero => omega
  | succ n ih =>
      rcases Nat.lt_or_ge n 300 with hlt | hge
      · have hn300 : n = 299 := by omega
        subst hn300
        have hstep := krun_delay_phase d 299 (by omega)
        rw [List.replicate_succ' 299 KEv.tick]
        simp only [krun, List.foldl_append, List.foldl_cons, List.foldl_nil] at *
        rw [hstep]
        simp [kstep, tick]
      · have hstep := ih hge
        rw [List.replicate_succ' n KEv.tick]
        simp only [krun, List.foldl_append, List.foldl_cons, List.foldl_nil] at *
        rw [hstep]
        simp only [kstep, tick]
        rcases Nat.lt_or_ge ((n - 300) % 50) 49 with hm | hm
        · rw [if_neg (by omega)]
          have hdiv : (n - 300) / 50 = (n + 1 - 300) / 50 := by omega
          simp only [KState.mk.injEq, Option.some.injEq, Prod.mk.injEq, and_true, true_and]
          rw [hdiv]
          simp only [and_true]
          omega
        · rw [if_pos (by omega)]
          have hdiv : 1 + (n + 1 - 300) / 50 = (1 + (n - 300) / 50) + 1 := by omega
          simp only [KState.mk.injEq, Option.some.injEq, Prod.mk.injEq, and_true, true_and]
          rw [hdiv, List.replicate_succ']
          simp only [and_true]
          omega

/-- Ticks do nothing once both timers are clear. -/
theorem krun_ticks_idle (s : KState) (h1 : s.holdTimeout = none)
    (h2 : s.holdInterval = none) (m : Nat) :
    krun s (List.replicate m .tick) = s := by
  induction m with
  | zero => rfl
  | succ m ih =>
      rw [List.replicate_succ]
      simp only [krun, List.foldl_cons]
      have : kstep s .tick = s := by
        simp [kstep, tick, h1, h2]
      rw [this]
      exact ih

/-- C4: after an arrow key-down with the popover open, exactly one
immediate step is logged; while the key stays held, the log after `n`
milliseconds holds `1 + (n - 300) / 50` steps in that direction — so
nothing more happens before the 300 ms delay fires and one repeat step
lands every 50 ms afterwards (at 350 ms, 400 ms, …) — and a key-up at
any time cancels both timers so that no further tick ever adds a
step. -/
theorem key_repeat_timing (d : Int) (n m : Nat) :
    (krun (handleKeyDown kinit d) (List.replicate n .tick)).stepLog
        = List.replicate (1 + (n - 300) / 50) d ∧
    (krun (krun (handleKeyDown kinit d) (List.replicate n .tick))
        (.keyUp :: List.replicate m .tick)).holdTimeout = none ∧
    (krun (krun (handleKeyDown kinit d) (List.replicate n .tick))
        (.keyUp :: List.replicate m .tick)).holdInterval = none ∧
    (krun (krun (handleKeyDown kinit d) (List.replicate n .tick))
        (.keyUp :: List.replicate m .tick)).stepLog
        = (krun (handleKeyDown kinit d) (List.replicate n .tick)).stepLog := by
  have hheld : (krun (handleKeyDown kinit d) (List.replicate n .tick)).stepLog
      = List.replicate (1 + (n - 300) / 50) d := by
    rcases Nat.lt_or_ge n 300 with hlt | hge
    · rw [krun_delay_phase d n (by omega)]
      have : n - 300 = 0 := by omega
      simp [this]
    · rw [krun_repeat_phase d n hge]
  set held := krun (handleKeyDown kinit d) (List.replicate n .tick) with hheldDef
  have hup : krun held (.keyUp :: List.replicate m .tick) = handleKeyUp held := by
    simp only [krun, List.foldl_cons]
    exact krun_ticks_idle (handleKeyUp held) rfl rfl m
  refine ⟨hheld, ?_, ?_, ?_⟩ <;> rw [hup] <;> simp [handleKeyUp, hheld]

end KeyRepeat

namespace Timers

/-!
Id-tracking model of the key-repeat timers, for the no-stacking
invariant.  Browsers keep the set of live timers; the component keeps
only the two handle variables `keyHoldInterval` / `keyHoldTimeout`
(lines 37-38).  A `setInterval`/`setTimeout` call creates a fresh live
timer and returns its id; `clearInterval`/`clearTimeout` removes an id
from the live set (a no-op on a spent or already-cleared id).  A timer
could "stack" precisely if a handler armed a new timer while an
unreferenced one was still live, so live timers are modelled as lists
of ids, not as single slots. -/

/-- Live-timer sets, the component's handle variables, and a fresh-id
counter. -/
structure TimerSys where
  isPopoverOpen : Bool
  activeIntervals : List Nat
  activeTimeouts : List Nat
  keyHoldInterval : Option Nat
  keyHoldTimeout : Option Nat
  nextId : Nat
deriving Repr, DecidableEq

/-- The guarded clear `if (keyHoldInterval) { clearInterval(keyHoldInterval); keyHoldInterval = null }`
(lines 144-147 / 169-172 / 193-196). -/
def clearIntervalVar (s : TimerSys) : TimerSys :=
  match s.keyHoldInterval with
  | some i => { s with activeIntervals := s.activeIntervals.erase i, keyHoldInterval := none }
  | none => s

/-- The guarded clear `if (keyHoldTimeout) { clearTimeout(keyHoldTimeout); keyHoldTimeout = null }`
(lines 148-151 / 173-176 / 197-200). -/
def clearTimeoutVar (s : TimerSys) : TimerSys :=
  match s.keyHoldTimeout with
  | some t => { s with activeTimeouts := s.activeTimeouts.erase t, keyHoldTimeout := none }
  | none => s

/-- Function `handleKeyDown` for an arrow key (lines 137-165): ignored when the
popover is closed; otherwise clear both existing timers, then arm the
300 ms delay timeout and store its handle.  (The immediate
`stepVersion` call does not touch the timers.) -/
def handleKeyDown (s : TimerSys) : TimerSys :=
  if ¬ s.isPopoverOpen then s
  else
    let s := clearTimeoutVar (clearIntervalVar s)
    { s with activeTimeouts := s.activeTimeouts ++ [s.nextId],
             keyHoldTimeout := some s.nextId, nextId := s.nextId + 1 }

/-- Function `handleKeyUp` for an arrow key (lines 167-178): clear both timers. -/
def handleKeyUp (s : TimerSys) : TimerSys :=
  clearTimeoutVar (clearIntervalVar s)

/-- A live delay timeout fires: the browser retires it and runs its
callback (lines 159-163), which arms the rapid-fire interval and
stores its handle.  The code does not null `keyHoldTimeout` in the
callback, so the spent handle stays in the variable. -/
def timeoutFire (s : TimerSys) : TimerSys :=
  match s.activeTimeouts with
  | [] => s
  | _ :: rest =>
      { s with activeTimeouts := rest,
               activeIntervals := s.activeIntervals ++ [s.nextId],
               keyHoldInterval := some s.nextId, nextId := s.nextId + 1 }

/-- The popover-open effect branch (lines 187-189) only attaches
listeners; the popover-close branch (lines 190-201) also clears both
timers. -/
def popoverOpen (s : TimerSys) : TimerSys :=
  { s with isPopoverOpen := true }

/-- Closing the navigation popover (lines 190-201). -/
def popoverClose (s : TimerSys) : TimerSys :=
  clearTimeoutVar (clearIntervalVar { s with isPopoverOpen := false })

/-- Function `onDestroy` (lines 50-54): clear both timers via their handles; the
variables are not nulled. -/
def onDestroy (s : TimerSys) : TimerSys :=
  let s :=
    match s.keyHoldInterval with
    | some i => { s with activeIntervals := s.activeIntervals.erase i }
    | none => s
  match s.keyHoldTimeout with
  | some t => { s with activeTimeouts := s.activeTimeouts.erase t }
  | none => s

/-- Timer-relevant events.  `intervalFire` is a live interval firing:
its callback only calls `stepVersion` (lines 160-162) and changes no
timer state. -/
inductive TEv where
  | keyDown
  | keyUp
  | timeoutFire
  | intervalFire
  | popoverOpen
  | popoverClose
  | destroy
deriving Repr, DecidableEq

/-- One event step. -/
def tstep (s : TimerSys) : TEv → TimerSys
  | .keyDown => handleKeyDown s
  | .keyUp => handleKeyUp s
  | .timeoutFire => timeoutFire s
  | .intervalFire => s
  | .popoverOpen => popoverOpen s
  | .popoverClose => popoverClose s
  | .destroy => onDestroy s

/-- Run a list of timer events. -/
def trun (s : TimerSys) (evs : List TEv) : TimerSys :=
  evs.foldl tstep s

/-- Initial state at component setup: popover closed, no timers. -/
def tinit : TimerSys :=
  { isPopoverOpen := false, activeIntervals := [], activeTimeouts := [],
    keyHoldInterval := none, keyHoldTimeout := none, nextId := 0 }

/-- The reachability invariant: every live timer is the one the
component's handle variable references (so clearing the variable
clears everything), each kind has at most one live timer, and no
interval is live while the delay timeout is still live. -/
def INV (s : TimerSys) : Prop :=
  (∀ t ∈ s.activeTimeouts, s.keyHoldTimeout = some t) ∧
  (∀ i ∈ s.activeIntervals, s.keyHoldInterval = some i) ∧
  s.activeTimeouts.length ≤ 1 ∧
  s.activeIntervals.length ≤ 1 ∧
  (s.activeTimeouts ≠ [] → s.activeIntervals = [])

/-- A live-timer list covered by a single handle variable is emptied by
clearing through that handle: if every live id equals the referenced
one and there is at most one live id, erasing the referenced id (or
doing nothing when the variable is null) leaves no live timer. -/
theorem cleared_by_handle (l : List Nat) (v : Option Nat)
    (href : ∀ a ∈ l, v = some a) (hlen : l.length ≤ 1) :
    (match v with
     | some i => l.erase i
     | none => l) = [] := by
  cases v with
  | none =>
      cases l with
      | nil => rfl
      | cons a t => exact absurd (href a (by simp)) (by simp)
  | some i =>
      cases l with
      | nil => rfl
      | cons a t =>
          have ha : a = i := by
            have := href a (by simp)
            injection this with hh
            exact hh.symm
          cases t with
          | nil =>
              subst ha
              simp [List.erase_cons]
          | cons b u => simp at hlen

/-- Under the invariant's interval clauses, `clearIntervalVar` empties
the live interval set and nulls the variable. -/
theorem clearIntervalVar_spec (s : TimerSys)
    (href : ∀ i ∈ s.activeIntervals, s.keyHoldInterval = some i)
    (hlen : s.activeIntervals.length ≤ 1) :
    clearIntervalVar s = { s with activeIntervals := [], keyHoldInterval := none } := by
  have hcl := cleared_by_handle s.activeIntervals s.keyHoldInterval href hlen
  obtain ⟨op, ai, atl, ki, kt, ni⟩ := s
  cases ki with
  | none => simp_all [clearIntervalVar]
  | some i => simp_all [clearIntervalVar]

/-- Under the invariant's timeout clauses, `clearTimeoutVar` empties
the live timeout set and nulls the variable. -/
theorem clearTimeoutVar_spec (s : TimerSys)
    (href : ∀ t ∈ s.activeTimeouts, s.keyHoldTimeout = some t)
    (hlen : s.activeTimeouts.length ≤ 1) :
    clearTimeoutVar s = { s with activeTimeouts := [], keyHoldTimeout := none } := by
  have hcl := cleared_by_handle s.activeTimeouts s.keyHoldTimeout href hlen
  obtain ⟨op, ai, atl, ki, kt, ni⟩ := s
  cases kt with
  | none => simp_all [clearTimeoutVar]
  | some t => simp_all [clearTimeoutVar]

/-- Under the invariant, `onDestroy` leaves no live timer. -/
theorem onDestroy_clears (s : TimerSys) (h : INV s) :
    (onDestroy s).activeIntervals = [] ∧ (onDestroy s).activeTimeouts = [] := by
  obtain ⟨h1, h2, h3, h4, h5⟩ := h
  have hci := cleared_by_handle s.activeIntervals s.keyHoldInterval h2 h4
  have hct := cleared_by_handle s.activeTimeouts s.keyHoldTimeout h1 h3
  obtain ⟨op, ai, atl, ki, kt, ni⟩ := s
  cases ki <;> cases kt <;> simp_all [onDestroy]

/-- Clearing both timers through their handles preserves (indeed
re-establishes) the invariant. -/
theorem INV_clearBoth (s : TimerSys) (h : INV s) :
    INV (clearTimeoutVar (clearIntervalVar s)) := by
  have e1 := clearIntervalVar_spec s h.2.1 h.2.2.2.1
  have e2 := clearTimeoutVar_spec { s with activeIntervals := [], keyHoldInterval := none }
    h.1 h.2.2.1
  rw [e1, e2]
  refine ⟨?_, ?_, ?_, ?_, ?_⟩ <;> simp

/-- The invariant is preserved by every event. -/
theorem INV_step (s : TimerSys) (h : INV s) (e : TEv) : INV (tstep s e) := by
  cases e with
  | keyDown =>
      show INV (handleKeyDown s)
      by_cases hop : s.isPopoverOpen = true
      · have e1 := clearIntervalVar_spec s h.2.1 h.2.2.2.1
        have e2 := clearTimeoutVar_spec { s with activeIntervals := [], keyHoldInterval := none }
          h.1 h.2.2.1
        simp only [handleKeyDown, hop, Bool.not_true]
        rw [if_neg (by simp), e1, e2]
        refine ⟨?_, ?_, ?_, ?_, ?_⟩ <;> simp
      · simp only [handleKeyDown]
        rw [if_pos (by simp [hop])]
        exact h
  | keyUp =>
      show INV (handleKeyUp s)
      exact INV_clearBoth s h
  | timeoutFire =>
      show INV (timeoutFire s)
      obtain ⟨h1, h2, h3, h4, h5⟩ := h
      simp only [timeoutFire]
      cases hl : s.activeTimeouts with
      | nil => exact ⟨h1, h2, h3, h4, h5⟩
      | cons t rest =>
          have hrest : rest = [] := by
            rw [hl] at h3
            simp at h3
            exact h3
          have hints : s.activeIntervals = [] := h5 (by rw [hl]; simp)
          subst hrest
          refine ⟨?_, ?_, ?_, ?_, ?_⟩
          · intro x hx
            cases hx
          · intro i hi
            simp only [hints, List.nil_append, List.mem_singleton] at hi
            simp [hi]
          · simp
          · simp [hints]
          · intro hne
            exact absurd rfl hne
  | intervalFire => exact h
  | popoverOpen =>
      show INV (popoverOpen s)
      obtain ⟨h1, h2, h3, h4, h5⟩ := h
      exact ⟨h1, h2, h3, h4, h5⟩
  | popoverClose =>
      show INV (popoverClose s)
      exact INV_clearBoth { s with isPopoverOpen := false }
        ⟨h.1, h.2.1, h.2.2.1, h.2.2.2.1, h.2.2.2.2⟩
  | destroy =>
      show INV (onDestroy s)
      have hcl := onDestroy_clears s h
      refine ⟨?_, ?_, ?_, ?_, ?_⟩
      · intro t ht
        rw [hcl.2] at ht
        cases ht
      · intro i hi
        rw [hcl.1] at hi
        cases hi
      · rw [hcl.2]
        simp
      · rw [hcl.1]
        simp
      · intro hne
        exact hcl.1

/-- The invariant holds along every run from the initial state. -/
theorem INV_trun (evs : List TEv) : INV (trun tinit evs) := by
  suffices h : ∀ s : TimerSys, INV s → INV (trun s evs) by
    exact h tinit ⟨by simp [tinit], by simp [tinit], by simp [tinit], by simp [tinit],
      by intro hne; rfl⟩
  induction evs with
  | nil => intro s hs; exact hs
  | cons e evs ih =>
      intro s hs
      exact ih (tstep s e) (INV_step s hs e)

/-- C10: along every sequence of key, popover, timer-fire and
teardown events from component setup, at most one repeat interval and
at most one delay timeout are ever live at once: every key-down clears
the existing timers through their handles before arming new ones, and
the popover-close and destroy paths clear both, so repeat timers never
stack. -/
theorem timers_never_stack (evs : List TEv) :
    (trun tinit evs).activeIntervals.length ≤ 1 ∧
    (trun tinit evs).activeTimeouts.length ≤ 1 := by
  have h := INV_trun evs
  exact ⟨h.2.2.2.1, h.2.2.1⟩

end Timers

end XPatchEditor
